import Mathlib

/-!
Verification of the QCM evaluation engine (llm_evaluation_system /
llm_evaluation_front) against its natural-language specification.

The Python sources are shallowly embedded: dictionaries become structures or
association lists, dictionaries keyed by criterion name become total
functions `String → CriteriaStats` (an absent key corresponds to the zero
statistics record, matching the lazy initialisation in the source), machine
time stamps become natural-number seconds, and the external Gemini API is
an oracle parameter.  Exception-raising code is embedded with `Except`.
-/

/-! ## Data model: QCM records and scored results

A QCM record as produced by `qcm_generator.py` and consumed read-only by the
evaluators.  `choices` is the label → text mapping (an association list in
insertion order); `is_fake` and `error` are the fallback-marker flags, absent
keys being embedded as `false`. -/

structure QCMRecord where
  question : String
  choices : List (String × String)
  correct_answer : String
  points : Int
  explanation : String
  criterion : String
  type : String
  difficulty : String
  is_fake : Bool
  error : Bool
  deriving Repr, DecidableEq

/-- The result dictionary built by `_create_response_dict` /
`_create_error_response` (`llm_evaluator.py` lines 197-220) and inlined in
`service.py` `_evaluate_single_qcm` (lines 1355-1388). -/
structure ScoredResult where
  criterion : String
  question : String
  model_answer : String
  correct_answer : String
  score : Int
  max_points : Int
  status : String
  deriving Repr, DecidableEq

/-- `llm_evaluator.py` `_create_response_dict` (lines 197-208). -/
def create_response_dict (qcm : QCMRecord) (response : String) : ScoredResult :=
  let correct := response = qcm.correct_answer
  { criterion := qcm.criterion
    question := qcm.question
    model_answer := response
    correct_answer := qcm.correct_answer
    score := if correct then qcm.points else 0
    max_points := qcm.points
    status := "success" }

/-- `llm_evaluator.py` `_create_error_response` (lines 210-220). -/
def create_error_response (qcm : QCMRecord) : ScoredResult :=
  { criterion := qcm.criterion
    question := qcm.question
    model_answer := "ERROR"
    correct_answer := qcm.correct_answer
    score := 0
    max_points := qcm.points
    status := "error" }

/-- `service.py` `_evaluate_single_qcm` (lines 1355-1388).  The response of
the legal assistant (possibly served from the cache) is passed in as the
`response` argument; the two literal result dictionaries of the source are
the same as `create_response_dict` / `create_error_response`. -/
def evaluate_single_qcm (qcm : QCMRecord) (response : String) : ScoredResult :=
  if response ≠ "ERROR" then
    let correct := response = qcm.correct_answer
    { criterion := qcm.criterion
      question := qcm.question
      model_answer := response
      correct_answer := qcm.correct_answer
      score := if correct then qcm.points else 0
      max_points := qcm.points
      status := "success" }
  else
    { criterion := qcm.criterion
      question := qcm.question
      model_answer := "ERROR"
      correct_answer := qcm.correct_answer
      score := 0
      max_points := qcm.points
      status := "error" }

/-! ## Per-criterion aggregation state -/

/-- One value of the `criteria_scores` dictionary (`llm_evaluator.py`
`_update_results` lines 366-373, `service.py` `_merge_evaluation_results`
lines 1410-1417).  `advanced_metrics` is a string-keyed dictionary updated
with `dict.update`, embedded as a total function to `Option`. -/
structure CriteriaStats where
  score : Int
  total : Int
  questions_count : Nat
  success_count : Nat
  advanced_metrics : String → Option String

/-- The zero statistics record used at lazy initialisation. -/
def zeroStats : CriteriaStats :=
  { score := 0, total := 0, questions_count := 0, success_count := 0
    advanced_metrics := fun _ => none }

/-- `dict.update`: keys present in `adv` override, the rest keep their old
binding.  `adv` is the advanced-result dictionary as an association list. -/
def update_metrics (old : String → Option String) (adv : List (String × String)) :
    String → Option String :=
  fun k => match adv.lookup k with
    | some v => some v
    | none => old k

/-- The aggregate `results` dictionary of `evaluate_model`
(`llm_evaluator.py` lines 76-83).  `total_score` and `success_rate` are
computed only at finalisation and play no role in the claims, so they are
omitted; `criteria_scores` is keyed by criterion name. -/
structure EvalResults where
  criteria_scores : String → CriteriaStats
  details : List ScoredResult
  error_count : Nat

def empty_results : EvalResults :=
  { criteria_scores := fun _ => zeroStats, details := [], error_count := 0 }

/-- `llm_evaluator.py` `_update_results` (lines 353-383). -/
def update_results (results : EvalResults) (standard : ScoredResult)
    (advanced : List (String × String)) (qcm : QCMRecord) : EvalResults :=
  let criterion := qcm.criterion
  let stats := results.criteria_scores criterion
  let stats :=
    if standard.status = "success" then
      { stats with success_count := stats.success_count + 1
                   score := stats.score + standard.score }
    else stats
  let stats :=
    { stats with total := stats.total + standard.max_points
                 questions_count := stats.questions_count + 1
                 advanced_metrics := update_metrics stats.advanced_metrics advanced }
  { results with
      criteria_scores := fun c => if c = criterion then stats else results.criteria_scores c }

/-- The body of the per-QCM loop of `evaluate_model` (`llm_evaluator.py`
lines 91-119).  `response` is the legal assistant's answer (possibly served
from the cache); `adv` is the outcome of `_run_advanced_tests`, consulted
only outside test mode.  A response equal to the `ERROR` sentinel only
increments `error_count`. -/
def evaluate_model_step (adv : QCMRecord → List (String × String)) (test_mode : Bool)
    (results : EvalResults) (qcm : QCMRecord) (response : String) : EvalResults :=
  if response ≠ "ERROR" then
    let standard := create_response_dict qcm response
    let results := { results with details := results.details ++ [standard] }
    if test_mode then
      update_results results standard [] qcm
    else
      update_results results standard (adv qcm) qcm
  else
    { results with error_count := results.error_count + 1 }

/-- The for-loop of `evaluate_model` over the (batched) QCM list.  Batching
only interleaves sleeps and logging, so the loop is flattened. -/
def evaluate_model_go (adv : QCMRecord → List (String × String)) (test_mode : Bool) :
    EvalResults → List (QCMRecord × String) → EvalResults
  | results, [] => results
  | results, p :: rest =>
      evaluate_model_go adv test_mode (evaluate_model_step adv test_mode results p.1 p.2) rest

/-- `llm_evaluator.py` `evaluate_model` (lines 62-125), with the model
responses supplied alongside each QCM. -/
def evaluate_model (adv : QCMRecord → List (String × String)) (test_mode : Bool)
    (pairs : List (QCMRecord × String)) : EvalResults :=
  evaluate_model_go adv test_mode empty_results pairs

/-! ### Reference aggregation sums used to state the claims -/

/-- The QCMs of criterion `c` whose response is not the `ERROR` sentinel:
exactly those that reach `_update_results` inside `evaluate_model`. -/
def answered (c : String) (pairs : List (QCMRecord × String)) : List (QCMRecord × String) :=
  pairs.filter (fun p => p.1.criterion = c ∧ p.2 ≠ "ERROR")

def answered_max_points (c : String) (pairs : List (QCMRecord × String)) : Int :=
  ((answered c pairs).map (fun p => p.1.points)).sum

def answered_score (c : String) (pairs : List (QCMRecord × String)) : Int :=
  (((answered c pairs).filter (fun p => p.2 = p.1.correct_answer)).map
    (fun p => p.1.points)).sum

/-- `max_points` summed over every QCM of criterion `c`, error or not —
the quantity the aggregation invariant of the spec talks about. -/
def all_max_points (c : String) (pairs : List (QCMRecord × String)) : Int :=
  ((pairs.filter (fun p => p.1.criterion = c)).map (fun p => p.1.points)).sum

/-! ## Front-service batch results and merging -/

/-- One element of `batch_results['details']` built by
`_process_evaluation_batch` (`service.py` lines 1314-1353): the standard
result, plus the `advanced` key (the empty list embeds a missing or empty
`advanced` dictionary — `_merge_evaluation_results` treats both alike). -/
structure Detail extends ScoredResult where
  advanced : List (String × String)

/-- `batch_results` as built by `_process_evaluation_batch`. -/
structure BatchResults where
  details : List Detail
  error_count : Nat

/-- The aggregate `results` dictionary of `_evaluate_model_with_updates`
(`service.py` lines 1231-1238), restricted as `EvalResults` above. -/
structure FrontResults where
  criteria_scores : String → CriteriaStats
  details : List Detail
  error_count : Nat

def empty_front_results : FrontResults :=
  { criteria_scores := fun _ => zeroStats, details := [], error_count := 0 }

/-- The per-detail body of the statistics loop of
`_merge_evaluation_results` (`service.py` lines 1407-1430). -/
def merge_detail (cs : String → CriteriaStats) (d : Detail) : String → CriteriaStats :=
  let criterion := d.criterion
  let stats := cs criterion
  let stats :=
    if d.status = "success" then
      { stats with success_count := stats.success_count + 1
                   score := stats.score + d.score }
    else stats
  let stats :=
    { stats with total := stats.total + d.max_points
                 questions_count := stats.questions_count + 1 }
  let stats :=
    if d.advanced ≠ [] then
      { stats with advanced_metrics := update_metrics stats.advanced_metrics d.advanced }
    else stats
  fun c => if c = criterion then stats else cs c

def merge_details : (String → CriteriaStats) → List Detail → (String → CriteriaStats)
  | cs, [] => cs
  | cs, d :: rest => merge_details (merge_detail cs d) rest

/-- `service.py` `_merge_evaluation_results` (lines 1396-1430). -/
def merge_evaluation_results (results : FrontResults) (batch : BatchResults) : FrontResults :=
  { details := results.details ++ batch.details
    error_count := results.error_count + batch.error_count
    criteria_scores := merge_details results.criteria_scores batch.details }

/-- `max_points` summed over the details of criterion `c` in a batch,
regardless of status. -/
def details_max_points (c : String) (ds : List Detail) : Int :=
  ((ds.filter (fun d => d.criterion = c)).map (fun d => d.max_points)).sum

def details_count (c : String) (ds : List Detail) : Nat :=
  (ds.filter (fun d => d.criterion = c)).length

def details_score (c : String) (ds : List Detail) : Int :=
  ((ds.filter (fun d => d.criterion = c ∧ d.status = "success")).map
    (fun d => d.score)).sum

def details_success_count (c : String) (ds : List Detail) : Nat :=
  (ds.filter (fun d => d.criterion = c ∧ d.status = "success")).length

/-! ## Field-wise behaviour of the aggregation steps -/

theorem evaluate_model_step_total (adv : QCMRecord → List (String × String)) (tm : Bool)
    (res : EvalResults) (qcm : QCMRecord) (response : String) (c : String) :
    ((evaluate_model_step adv tm res qcm response).criteria_scores c).total
      = (res.criteria_scores c).total
        + (if c = qcm.criterion ∧ response ≠ "ERROR" then qcm.points else 0) := by
  cases tm <;>
    by_cases hr : response = "ERROR" <;>
      by_cases hc : c = qcm.criterion <;>
        simp [evaluate_model_step, update_results, create_response_dict, hr, hc]

theorem evaluate_model_step_qcount (adv : QCMRecord → List (String × String)) (tm : Bool)
    (res : EvalResults) (qcm : QCMRecord) (response : String) (c : String) :
    ((evaluate_model_step adv tm res qcm response).criteria_scores c).questions_count
      = (res.criteria_scores c).questions_count
        + (if c = qcm.criterion ∧ response ≠ "ERROR" then 1 else 0) := by
  cases tm <;>
    by_cases hr : response = "ERROR" <;>
      by_cases hc : c = qcm.criterion <;>
        simp [evaluate_model_step, update_results, create_response_dict, hr, hc]

theorem evaluate_model_step_scount (adv : QCMRecord → List (String × String)) (tm : Bool)
    (res : EvalResults) (qcm : QCMRecord) (response : String) (c : String) :
    ((evaluate_model_step adv tm res qcm response).criteria_scores c).success_count
      = (res.criteria_scores c).success_count
        + (if c = qcm.criterion ∧ response ≠ "ERROR" then 1 else 0) := by
  cases tm <;>
    by_cases hr : response = "ERROR" <;>
      by_cases hc : c = qcm.criterion <;>
        simp [evaluate_model_step, update_results, create_response_dict, hr, hc]

theorem evaluate_model_step_score (adv : QCMRecord → List (String × String)) (tm : Bool)
    (res : EvalResults) (qcm : QCMRecord) (response : String) (c : String) :
    ((evaluate_model_step adv tm res qcm response).criteria_scores c).score
      = (res.criteria_scores c).score
        + (if c = qcm.criterion ∧ response ≠ "ERROR" then
            (if response = qcm.correct_answer then qcm.points else 0) else 0) := by
  cases tm <;>
    by_cases hr : response = "ERROR" <;>
      by_cases hc : c = qcm.criterion <;>
        simp [evaluate_model_step, update_results, create_response_dict, hr, hc]

theorem answered_cons (c : String) (p : QCMRecord × String) (rest : List (QCMRecord × String)) :
    answered c (p :: rest)
      = if p.1.criterion = c ∧ p.2 ≠ "ERROR" then p :: answered c rest else answered c rest := by
  by_cases h : p.1.criterion = c ∧ p.2 ≠ "ERROR" <;> simp [answered, List.filter_cons, h]

theorem evaluate_model_go_stats (adv : QCMRecord → List (String × String)) (tm : Bool)
    (c : String) :
    ∀ (pairs : List (QCMRecord × String)) (res : EvalResults),
      ((evaluate_model_go adv tm res pairs).criteria_scores c).total
          = (res.criteria_scores c).total + answered_max_points c pairs
      ∧ ((evaluate_model_go adv tm res pairs).criteria_scores c).questions_count
          = (res.criteria_scores c).questions_count + (answered c pairs).length
      ∧ ((evaluate_model_go adv tm res pairs).criteria_scores c).success_count
          = (res.criteria_scores c).success_count + (answered c pairs).length
      ∧ ((evaluate_model_go adv tm res pairs).criteria_scores c).score
          = (res.criteria_scores c).score + answered_score c pairs := by
  intro pairs
  induction pairs with
  | nil =>
      intro res
      simp [evaluate_model_go, answered, answered_max_points, answered_score]
  | cons p rest ih =>
      intro res
      obtain ⟨ih1, ih2, ih3, ih4⟩ := ih (evaluate_model_step adv tm res p.1 p.2)
      have hgo : evaluate_model_go adv tm res (p :: rest)
          = evaluate_model_go adv tm (evaluate_model_step adv tm res p.1 p.2) rest := rfl
      rw [hgo]
      rw [evaluate_model_step_total adv tm res p.1 p.2 c] at ih1
      rw [evaluate_model_step_qcount adv tm res p.1 p.2 c] at ih2
      rw [evaluate_model_step_scount adv tm res p.1 p.2 c] at ih3
      rw [evaluate_model_step_score adv tm res p.1 p.2 c] at ih4
      by_cases hc : c = p.1.criterion ∧ p.2 ≠ "ERROR"
      · have hc2 : p.1.criterion = c ∧ p.2 ≠ "ERROR" := ⟨hc.1.symm, hc.2⟩
        rw [if_pos hc] at ih1 ih2 ih3 ih4
        refine ⟨?_, ?_, ?_, ?_⟩
        · rw [ih1]
          simp only [answered_max_points, answered_cons, if_pos hc2, List.map_cons,
            List.sum_cons]
          ring
        · rw [ih2]; simp only [answered_cons, if_pos hc2, List.length_cons]; omega
        · rw [ih3]; simp only [answered_cons, if_pos hc2, List.length_cons]; omega
        · rw [ih4]
          simp only [answered_score, answered_cons, if_pos hc2, List.filter_cons]
          by_cases ha : p.2 = p.1.correct_answer <;> simp [ha] <;> ring
      · have hc2 : ¬(p.1.criterion = c ∧ p.2 ≠ "ERROR") := fun h => hc ⟨h.1.symm, h.2⟩
        rw [if_neg hc] at ih1 ih2 ih3 ih4
        refine ⟨?_, ?_, ?_, ?_⟩
        · rw [ih1]; simp only [answered_max_points, answered_cons, if_neg hc2]; omega
        · rw [ih2]; simp only [answered_cons, if_neg hc2]; omega
        · rw [ih3]; simp only [answered_cons, if_neg hc2]; omega
        · rw [ih4]; simp only [answered_score, answered_cons, if_neg hc2]; omega

theorem merge_detail_total (cs : String → CriteriaStats) (d : Detail) (c : String) :
    (merge_detail cs d c).total
      = (cs c).total + (if c = d.criterion then d.max_points else 0) := by
  by_cases hs : d.status = "success" <;>
    by_cases hc : c = d.criterion <;>
      by_cases ha : d.advanced = [] <;>
        simp [merge_detail, hs, hc, ha]

theorem merge_detail_qcount (cs : String → CriteriaStats) (d : Detail) (c : String) :
    (merge_detail cs d c).questions_count
      = (cs c).questions_count + (if c = d.criterion then 1 else 0) := by
  by_cases hs : d.status = "success" <;>
    by_cases hc : c = d.criterion <;>
      by_cases ha : d.advanced = [] <;>
        simp [merge_detail, hs, hc, ha]

theorem merge_detail_scount (cs : String → CriteriaStats) (d : Detail) (c : String) :
    (merge_detail cs d c).success_count
      = (cs c).success_count + (if c = d.criterion ∧ d.status = "success" then 1 else 0) := by
  by_cases hs : d.status = "success" <;>
    by_cases hc : c = d.criterion <;>
      by_cases ha : d.advanced = [] <;>
        simp [merge_detail, hs, hc, ha]

theorem merge_detail_score (cs : String → CriteriaStats) (d : Detail) (c : String) :
    (merge_detail cs d c).score
      = (cs c).score + (if c = d.criterion ∧ d.status = "success" then d.score else 0) := by
  by_cases hs : d.status = "success" <;>
    by_cases hc : c = d.criterion <;>
      by_cases ha : d.advanced = [] <;>
        simp [merge_detail, hs, hc, ha]

theorem merge_details_stats (c : String) :
    ∀ (ds : List Detail) (cs : String → CriteriaStats),
      (merge_details cs ds c).total = (cs c).total + details_max_points c ds
      ∧ (merge_details cs ds c).questions_count = (cs c).questions_count + details_count c ds
      ∧ (merge_details cs ds c).success_count
          = (cs c).success_count + details_success_count c ds
      ∧ (merge_details cs ds c).score = (cs c).score + details_score c ds := by
  intro ds
  induction ds with
  | nil =>
      intro cs
      simp [merge_details, details_max_points, details_count, details_success_count,
        details_score]
  | cons d rest ih =>
      intro cs
      obtain ⟨ih1, ih2, ih3, ih4⟩ := ih (merge_detail cs d)
      have hgo : merge_details cs (d :: rest) = merge_details (merge_detail cs d) rest := rfl
      rw [hgo]
      rw [merge_detail_total cs d c] at ih1
      rw [merge_detail_qcount cs d c] at ih2
      rw [merge_detail_scount cs d c] at ih3
      rw [merge_detail_score cs d c] at ih4
      refine ⟨?_, ?_, ?_, ?_⟩
      · rw [ih1]
        simp only [details_max_points, List.filter_cons]
        by_cases hc : c = d.criterion <;> simp [hc, Ne.symm, eq_comm] <;> omega
      · rw [ih2]
        simp only [details_count, List.filter_cons]
        by_cases hc : c = d.criterion <;> simp [hc, eq_comm] <;> omega
      · rw [ih3]
        simp only [details_success_count, List.filter_cons]
        by_cases hc : c = d.criterion <;>
          by_cases hs : d.status = "success" <;> simp [hc, hs, eq_comm] <;> omega
      · rw [ih4]
        simp only [details_score, List.filter_cons]
        by_cases hc : c = d.criterion <;>
          by_cases hs : d.status = "success" <;> simp [hc, hs, eq_comm] <;> omega

/-! ## Sample records used by witnesses and counterexamples -/

def sampleQcm : QCMRecord :=
  { question := "Quelle option est correcte ?"
    choices := [("A", "Option A"), ("B", "Option B"), ("C", "Option C"), ("D", "Option D")]
    correct_answer := "A"
    points := 5
    explanation := "exemple"
    criterion := "Bias"
    type := "gender"
    difficulty := "subtle"
    is_fake := false
    error := false }

/-- A successful detail for criterion `Bias` whose advanced metrics bind
`bias_test` to `X`. -/
def detailAdvX : Detail :=
  { criterion := "Bias", question := "Q", model_answer := "A", correct_answer := "A"
    score := 5, max_points := 5, status := "success"
    advanced := [("bias_test", "X")] }

/-- Like `detailAdvX` but binding `bias_test` to `Y`. -/
def detailAdvY : Detail :=
  { criterion := "Bias", question := "Q", model_answer := "B", correct_answer := "A"
    score := 0, max_points := 5, status := "success"
    advanced := [("bias_test", "Y")] }

def batchAdvX : BatchResults := { details := [detailAdvX], error_count := 0 }

def batchAdvY : BatchResults := { details := [detailAdvY], error_count := 0 }

/-! ## C1 — scoring a single QCM -/

/-- C1: scoring one QCM returns `score = points` exactly when the model
answer equals `correct_answer` (and `0` otherwise), with
`max_points = points` and `status = "success"`, for any non-sentinel
response; the `ERROR` sentinel yields `model_answer = "ERROR"`, `score = 0`
and `status = "error"`.  The inlined dictionaries of the front service
coincide with `_create_response_dict` / `_create_error_response` of the
evaluator. -/
theorem c1_single_qcm_scoring (qcm : QCMRecord) (response : String) :
    (response ≠ "ERROR" →
      (evaluate_single_qcm qcm response).score
          = (if response = qcm.correct_answer then qcm.points else 0)
        ∧ (evaluate_single_qcm qcm response).max_points = qcm.points
        ∧ (evaluate_single_qcm qcm response).status = "success")
    ∧ (response = "ERROR" →
      (evaluate_single_qcm qcm response).model_answer = "ERROR"
        ∧ (evaluate_single_qcm qcm response).score = 0
        ∧ (evaluate_single_qcm qcm response).max_points = qcm.points
        ∧ (evaluate_single_qcm qcm response).status = "error")
    ∧ evaluate_single_qcm qcm response
        = (if response ≠ "ERROR" then create_response_dict qcm response
           else create_error_response qcm) := by
  refine ⟨fun h => ?_, fun h => ?_, ?_⟩
  · simp [evaluate_single_qcm, h]
  · simp [evaluate_single_qcm, h]
  · by_cases h : response = "ERROR" <;>
      simp [evaluate_single_qcm, create_response_dict, create_error_response, h]

theorem c1_single_qcm_scoring_witness :
    (evaluate_single_qcm sampleQcm "A").score = 5
      ∧ (evaluate_single_qcm sampleQcm "ERROR").status = "error" := by
  constructor
  · have h := ((c1_single_qcm_scoring sampleQcm "A").1 (by decide)).1
    rw [h]; decide
  · exact ((c1_single_qcm_scoring sampleQcm "ERROR").2.1 rfl).2.2.2

/-! ## C2 — per-criterion aggregation -/

/-- C2 counterexample: in `evaluate_model`, a QCM whose response is the
`ERROR` sentinel never reaches `_update_results`, so `criteria_scores` does
not accumulate its `max_points` — contradicting the claim that `total`
accumulates over every QCM regardless of success or error.  One Bias QCM
worth 5 points answered by `ERROR` leaves `total` at 0, not 5. -/
theorem c2_error_qcm_not_aggregated :
    ((evaluate_model (fun _ => []) true [(sampleQcm, "ERROR")]).criteria_scores "Bias").total
      ≠ all_max_points "Bias" [(sampleQcm, "ERROR")] := by
  decide

/-- C2 amended: in `evaluate_model` only QCMs answered without the `ERROR`
sentinel reach aggregation, so for each criterion `total` and
`questions_count` accumulate exactly over those QCMs (whose results all
carry status `success`), `score` accumulating over the correctly answered
ones; the invariant as stated by the claim — `total` and `questions_count`
over every result regardless of status, `score` and `success_count` only on
success — holds for the front service's `_merge_evaluation_results`. -/
theorem c2_aggregation_totals :
    (∀ (adv : QCMRecord → List (String × String)) (tm : Bool)
        (pairs : List (QCMRecord × String)) (c : String),
      ((evaluate_model adv tm pairs).criteria_scores c).total = answered_max_points c pairs
        ∧ ((evaluate_model adv tm pairs).criteria_scores c).questions_count
            = (answered c pairs).length
        ∧ ((evaluate_model adv tm pairs).criteria_scores c).success_count
            = (answered c pairs).length
        ∧ ((evaluate_model adv tm pairs).criteria_scores c).score = answered_score c pairs)
    ∧ (∀ (res : FrontResults) (batch : BatchResults) (c : String),
      ((merge_evaluation_results res batch).criteria_scores c).total
          = (res.criteria_scores c).total + details_max_points c batch.details
        ∧ ((merge_evaluation_results res batch).criteria_scores c).questions_count
            = (res.criteria_scores c).questions_count + details_count c batch.details
        ∧ ((merge_evaluation_results res batch).criteria_scores c).success_count
            = (res.criteria_scores c).success_count + details_success_count c batch.details
        ∧ ((merge_evaluation_results res batch).criteria_scores c).score
            = (res.criteria_scores c).score + details_score c batch.details) := by
  constructor
  · intro adv tm pairs c
    have h := evaluate_model_go_stats adv tm c pairs empty_results
    simpa [evaluate_model, empty_results, zeroStats] using h
  · intro res batch c
    have h := merge_details_stats c batch.details res.criteria_scores
    simpa [merge_evaluation_results] using h

/-! ## C8 — commutativity of batch merging -/

/-- C8 counterexample: `advanced_metrics` is merged with `dict.update`
(last writer wins), so merging two batches that carry the same advanced key
for the same criterion yields different `criteria_scores` depending on the
order. -/
theorem c8_merge_order_matters :
    (merge_evaluation_results (merge_evaluation_results empty_front_results batchAdvX)
        batchAdvY).criteria_scores
      ≠ (merge_evaluation_results (merge_evaluation_results empty_front_results batchAdvY)
        batchAdvX).criteria_scores := by
  intro h
  have h1 : ((merge_evaluation_results (merge_evaluation_results empty_front_results batchAdvX)
      batchAdvY).criteria_scores "Bias").advanced_metrics "bias_test" = some "Y" := rfl
  have h2 : ((merge_evaluation_results (merge_evaluation_results empty_front_results batchAdvY)
      batchAdvX).criteria_scores "Bias").advanced_metrics "bias_test" = some "X" := rfl
  rw [h] at h1
  have h3 := h1.symm.trans h2
  exact absurd h3 (by decide)

/-- C8 amended: the numeric per-criterion statistics (`score`, `total`,
`questions_count`, `success_count`) and `error_count` accumulated by
`_merge_evaluation_results` are order-independent; only the
`advanced_metrics` dictionary, merged with last-writer-wins `dict.update`,
can depend on the merge order. -/
theorem c8_merge_numeric_commutative (res : FrontResults) (a b : BatchResults) (c : String) :
    ((merge_evaluation_results (merge_evaluation_results res a) b).criteria_scores c).total
        = ((merge_evaluation_results (merge_evaluation_results res b) a).criteria_scores c).total
      ∧ ((merge_evaluation_results (merge_evaluation_results res a) b).criteria_scores
            c).questions_count
        = ((merge_evaluation_results (merge_evaluation_results res b) a).criteria_scores
            c).questions_count
      ∧ ((merge_evaluation_results (merge_evaluation_results res a) b).criteria_scores
            c).success_count
        = ((merge_evaluation_results (merge_evaluation_results res b) a).criteria_scores
            c).success_count
      ∧ ((merge_evaluation_results (merge_evaluation_results res a) b).criteria_scores c).score
        = ((merge_evaluation_results (merge_evaluation_results res b) a).criteria_scores c).score
      ∧ (merge_evaluation_results (merge_evaluation_results res a) b).error_count
        = (merge_evaluation_results (merge_evaluation_results res b) a).error_count := by
  obtain ⟨t1, q1, s1, sc1⟩ := merge_details_stats c b.details
    (merge_details res.criteria_scores a.details)
  obtain ⟨t2, q2, s2, sc2⟩ := merge_details_stats c a.details res.criteria_scores
  obtain ⟨t3, q3, s3, sc3⟩ := merge_details_stats c a.details
    (merge_details res.criteria_scores b.details)
  obtain ⟨t4, q4, s4, sc4⟩ := merge_details_stats c b.details res.criteria_scores
  refine ⟨?_, ?_, ?_, ?_, ?_⟩ <;>
    simp only [merge_evaluation_results, t1, q1, s1, sc1, t2, q2, s2, sc2,
      t3, q3, s3, sc3, t4, q4, s4, sc4] <;>
    omega

/-! ## Model client: `_invoke_model` and `get_model_response`

One HTTP attempt either yields a response with a status code and a body
text, or fails with a `requests.RequestException`.  The oracle `o` gives
the outcome of attempt number `i`. -/

inductive ApiOutcome where
  | http (status : Nat) (body : String)
  | netFailure (msg : String)

/-- The `ModelEvaluationError` exception (`core/exceptions.py`), the only
exception the retry loops can let escape. -/
inductive InvokeError where
  | modelEvaluationError (msg : String)
  deriving Repr, DecidableEq

/-- `RETRY_CONFIG["max_retries"]` (`settings.py` line 78). -/
def max_retries : Nat := 3

/-- The attempt loop of `legal_assistant.py` `_invoke_model`
(lines 97-126), recursing on the number of remaining attempts.  Attempt
index `maxRetries - (fuel+1)` runs with `fuel` further attempts available:
a 429 sleeps and retries, a 200 returns the stripped upper-cased text
mapped into {A,B,C,D} or `ERROR`, any other status raises
`ModelEvaluationError` (uncaught: the `except` clause only matches
`RequestException`), and a network failure retries while
`attempt < max_retries - 1` and otherwise returns `ERROR`; falling off the
loop returns `ERROR` (lines 125-126). -/
def invoke_model_loop (o : Nat → ApiOutcome) (maxRetries : Nat) :
    Nat → Except InvokeError String
  | 0 => .ok "ERROR"
  | fuel + 1 =>
    match o (maxRetries - (fuel + 1)) with
    | .http status body =>
        if status = 429 then invoke_model_loop o maxRetries fuel
        else if status = 200 then
          let response_text := body.trim.toUpper
          .ok (if response_text ∈ ["A", "B", "C", "D"] then response_text else "ERROR")
        else .error (.modelEvaluationError ("API error: " ++ body))
    | .netFailure _ =>
        if 0 < fuel then invoke_model_loop o maxRetries fuel else .ok "ERROR"

/-- `legal_assistant.py` `_invoke_model` (lines 68-126). -/
def invoke_model (o : Nat → ApiOutcome) (maxRetries : Nat) : Except InvokeError String :=
  invoke_model_loop o maxRetries maxRetries

/-- `legal_assistant.py` `ask_question` (lines 53-66): builds the QCM
prompt and delegates to `_invoke_model` with the configured retry budget;
the returned value is exactly the loop's outcome. -/
def ask_question (o : Nat → ApiOutcome) : Except InvokeError String :=
  invoke_model o max_retries

/-- The attempt loop of `advanced_llm_testing.py` `get_model_response`
(lines 106-136): identical retry structure, but a 200 returns the stripped
upper-cased text unfiltered. -/
def get_model_response_loop (o : Nat → ApiOutcome) (maxRetries : Nat) :
    Nat → Except InvokeError String
  | 0 => .ok "ERROR"
  | fuel + 1 =>
    match o (maxRetries - (fuel + 1)) with
    | .http status body =>
        if status = 429 then get_model_response_loop o maxRetries fuel
        else if status = 200 then .ok body.trim.toUpper
        else .error (.modelEvaluationError ("API error: " ++ body))
    | .netFailure _ =>
        if 0 < fuel then get_model_response_loop o maxRetries fuel else .ok "ERROR"

/-- `advanced_llm_testing.py` `get_model_response` (lines 83-136), on a
cache miss (a cache hit returns the cached value before any attempt). -/
def get_model_response (o : Nat → ApiOutcome) (maxRetries : Nat) :
    Except InvokeError String :=
  get_model_response_loop o maxRetries maxRetries

theorem invoke_model_loop_sentinel (o : Nat → ApiOutcome) (maxRetries : Nat)
    (h : ∀ i, (∃ m, o i = .http 429 m) ∨ (∃ m, o i = .netFailure m)) :
    ∀ fuel, invoke_model_loop o maxRetries fuel = .ok "ERROR" := by
  intro fuel
  induction fuel with
  | zero => rfl
  | succ n ih =>
      rcases h (maxRetries - (n + 1)) with ⟨m, hm⟩ | ⟨m, hm⟩ <;>
        rw [invoke_model_loop, hm] <;> simp [ih]

theorem get_model_response_loop_sentinel (o : Nat → ApiOutcome) (maxRetries : Nat)
    (h : ∀ i, (∃ m, o i = .http 429 m) ∨ (∃ m, o i = .netFailure m)) :
    ∀ fuel, get_model_response_loop o maxRetries fuel = .ok "ERROR" := by
  intro fuel
  induction fuel with
  | zero => rfl
  | succ n ih =>
      rcases h (maxRetries - (n + 1)) with ⟨m, hm⟩ | ⟨m, hm⟩ <;>
        rw [get_model_response_loop, hm] <;> simp [ih]

/-! ## C3 — sentinel versus exception at the model boundary -/

/-- C3 counterexample: an HTTP status that is neither 200 nor 429 (here a
500) makes both `_invoke_model` and `get_model_response` raise
`ModelEvaluationError` out of the function — the `except` clause only
catches `requests.RequestException` — so not every failure outcome is
turned into the `ERROR` sentinel. -/
theorem c3_http_error_raises :
    invoke_model (fun _ => ApiOutcome.http 500 "boom") 3
        = Except.error (InvokeError.modelEvaluationError ("API error: " ++ "boom"))
      ∧ get_model_response (fun _ => ApiOutcome.http 500 "boom") 3
        = Except.error (InvokeError.modelEvaluationError ("API error: " ++ "boom")) :=
  ⟨rfl, rfl⟩

/-- C3 amended: when every attempt fails with a rate-limit (HTTP 429) or a
network-level `RequestException`, both model-invocation operations return
the `ERROR` sentinel after exhausting the retry budget instead of raising;
an HTTP error status other than 429, however, raises `ModelEvaluationError`
past the boundary. -/
theorem c3_retry_exhaustion_returns_sentinel (o : Nat → ApiOutcome) (maxRetries : Nat)
    (h : ∀ i, (∃ m, o i = .http 429 m) ∨ (∃ m, o i = .netFailure m)) :
    invoke_model o maxRetries = .ok "ERROR"
      ∧ get_model_response o maxRetries = .ok "ERROR" :=
  ⟨invoke_model_loop_sentinel o maxRetries h maxRetries,
   get_model_response_loop_sentinel o maxRetries h maxRetries⟩

theorem c3_retry_exhaustion_returns_sentinel_witness :
    invoke_model (fun _ => ApiOutcome.netFailure "timeout") 3 = .ok "ERROR"
      ∧ get_model_response (fun _ => ApiOutcome.netFailure "timeout") 3 = .ok "ERROR" :=
  c3_retry_exhaustion_returns_sentinel (fun _ => ApiOutcome.netFailure "timeout") 3
    (fun _ => Or.inr ⟨"timeout", rfl⟩)

/-! ## C10 — range of `ask_question` results -/

theorem invoke_model_loop_range (o : Nat → ApiOutcome) (maxRetries : Nat) :
    ∀ fuel s, invoke_model_loop o maxRetries fuel = .ok s →
      s = "A" ∨ s = "B" ∨ s = "C" ∨ s = "D" ∨ s = "ERROR" := by
  intro fuel
  induction fuel with
  | zero =>
      intro s hs
      simp only [invoke_model_loop, Except.ok.injEq] at hs
      simp [hs.symm]
  | succ n ih =>
      intro s hs
      rw [invoke_model_loop] at hs
      rcases ho : o (maxRetries - (n + 1)) with ⟨status, body⟩ | m <;> rw [ho] at hs <;>
        dsimp only at hs
      · by_cases h429 : status = 429
        · rw [if_pos h429] at hs
          exact ih s hs
        · rw [if_neg h429] at hs
          by_cases h200 : status = 200
          · rw [if_pos h200] at hs
            simp only [Except.ok.injEq] at hs
            by_cases hm : body.trim.toUpper ∈ ["A", "B", "C", "D"]
            · rw [if_pos hm] at hs
              subst hs
              have hm4 : body.trim.toUpper = "A" ∨ body.trim.toUpper = "B"
                  ∨ body.trim.toUpper = "C" ∨ body.trim.toUpper = "D" := by
                simpa using hm
              tauto
            · rw [if_neg hm] at hs
              simp [hs.symm]
          · rw [if_neg h200] at hs
            exact absurd hs (by simp)
      · by_cases hn : 0 < n
        · rw [if_pos hn] at hs
          exact ih s hs
        · rw [if_neg hn] at hs
          simp only [Except.ok.injEq] at hs
          simp [hs.symm]

/-- C10: whenever `ask_question` returns normally (no exception), its
result is one of the five strings `A`, `B`, `C`, `D` or `ERROR`: a
successful response whose text is not a single letter A-D is mapped to
`ERROR`, and so is every exhausted retry path. -/
theorem c10_ask_question_range (o : Nat → ApiOutcome) (s : String)
    (h : ask_question o = Except.ok s) :
    s = "A" ∨ s = "B" ∨ s = "C" ∨ s = "D" ∨ s = "ERROR" :=
  invoke_model_loop_range o max_retries max_retries s h

theorem c10_ask_question_range_witness :
    ("ERROR" : String) = "A" ∨ ("ERROR" : String) = "B" ∨ ("ERROR" : String) = "C"
      ∨ ("ERROR" : String) = "D" ∨ ("ERROR" : String) = "ERROR" :=
  c10_ask_question_range (fun _ => ApiOutcome.netFailure "down") "ERROR" (by rfl)

/-! ## Rate limiters

Timestamps are natural-number seconds.  `wait_if_needed` is called under
the instance lock, so a sequential run models the admissions: each call
starts at the previous call's return (admission) time plus a non-negative
delay. -/

/-- `legal_assistant.py` `RateLimit.wait_if_needed` pruning (lines 24-25):
keep the recorded timestamps strictly younger than one minute. -/
def prune_requests (now : Nat) (reqs : List Nat) : List Nat :=
  reqs.filter (fun r => now - r < 60)

/-- `legal_assistant.py` `RateLimit.wait_if_needed` (lines 20-31) at
arrival time `now`: prune, then if the pruned window has reached the
quota, sleep `61 - (now - oldest).seconds` (for a delta under a minute
`.seconds` is the whole-second age, and the pruning bound keeps the
subtraction positive, so natural subtraction is exact), and finally record
the PRE-sleep timestamp `now`.  Returns the admission time (when the call
returns) and the new recorded list. -/
def wait_if_needed (quota : Nat) (now : Nat) (reqs : List Nat) : Nat × List Nat :=
  let pruned := prune_requests now reqs
  if quota ≤ pruned.length then
    let oldest := pruned.headD 0
    let sleep_time := 61 - (now - oldest)
    (now + sleep_time, pruned ++ [now])
  else
    (now, pruned ++ [now])

/-- `advanced_llm_testing.py` `APIRateLimiter._cleanup_old_requests`
(lines 23-27): pop from the front while strictly older than one minute
(timestamps at exactly 60 seconds stay). -/
def cleanup_old_requests (now : Nat) (reqs : List Nat) : List Nat :=
  reqs.dropWhile (fun r => 60 < now - r)

/-- A `deque(maxlen=m)` append: when full, the leftmost element is
silently dropped. -/
def deque_append (m : Nat) (reqs : List Nat) (t : Nat) : List Nat :=
  if m ≤ reqs.length then reqs.tail ++ [t] else reqs ++ [t]

/-- `advanced_llm_testing.py` `APIRateLimiter.wait_if_needed`
(lines 29-41): cleanup, sleep `max 0 (61 - (now - oldest))` when full,
cleanup again (at the post-sleep clock), then append the PRE-sleep
timestamp `now`. -/
def api_wait_if_needed (quota : Nat) (now : Nat) (reqs : List Nat) : Nat × List Nat :=
  let reqs1 := cleanup_old_requests now reqs
  if quota ≤ reqs1.length then
    let oldest := reqs1.headD 0
    let wait_time := 61 - (now - oldest)
    let ret_time := now + max 0 wait_time
    let reqs2 := cleanup_old_requests ret_time reqs1
    (ret_time, deque_append quota reqs2 now)
  else
    (now, deque_append quota reqs1 now)

/-- Sequential run of a limiter: `step` is one `wait_if_needed` call,
`prev` the previous admission time; each caller arrives `d` seconds after
the previous call returned.  Returns the list of admission times. -/
def limiter_run_go (step : Nat → List Nat → Nat × List Nat) :
    Nat → List Nat → List Nat → List Nat
  | _, _, [] => []
  | prev, reqs, d :: rest =>
      let now := prev + d
      let out := step now reqs
      out.1 :: limiter_run_go step out.1 out.2 rest

def limiter_run (quota : Nat) (delays : List Nat) : List Nat :=
  limiter_run_go (wait_if_needed quota) 0 [] delays

def api_limiter_run (quota : Nat) (delays : List Nat) : List Nat :=
  limiter_run_go (api_wait_if_needed quota) 0 [] delays

/-- Number of admissions falling in the 60-second window `[w, w + 60)`. -/
def count_window (admissions : List Nat) (w : Nat) : Nat :=
  (admissions.filter (fun a => w ≤ a ∧ a < w + 60)).length

/-! ## C5 — sliding-window admission bound -/

/-- C5 counterexample: both limiters record the PRE-sleep arrival time
instead of the admission time.  With quota 1 and arrivals at 0, 1 and 62,
the second call sleeps until 61 but records timestamp 1, which has left
the window by the third call at 62 — so requests are admitted at 61 and 62,
two admissions inside one 60-second window. -/
theorem c5_window_violation :
    limiter_run 1 [0, 1, 1] = [0, 61, 62]
      ∧ api_limiter_run 1 [0, 1, 1] = [0, 61, 62]
      ∧ 1 < count_window (limiter_run 1 [0, 1, 1]) 61
      ∧ 1 < count_window (api_limiter_run 1 [0, 1, 1]) 61 := by
  decide

/-- C5 amended: when capacity is exhausted the caller indeed sleeps
`max 0 (61 - (now - oldest))` seconds before being admitted, which puts
the admission at least 61 seconds after the oldest pruned timestamp (so
the oldest is prunable at the next check and the limiter cannot deadlock);
but the recorded timestamp is the pre-sleep arrival time, and the admitted
requests are NOT bounded by the quota in every trailing 60-second window. -/
theorem c5_exhausted_sleep (quota now : Nat) (reqs : List Nat)
    (hq : 1 ≤ quota) (hle : ∀ r ∈ reqs, r ≤ now)
    (hfull : quota ≤ (prune_requests now reqs).length) :
    (wait_if_needed quota now reqs).1
        = now + max 0 (61 - (now - (prune_requests now reqs).headD 0))
      ∧ (prune_requests now reqs).headD 0 + 61 ≤ (wait_if_needed quota now reqs).1
      ∧ (wait_if_needed quota now reqs).2 = prune_requests now reqs ++ [now]
      ∧ (quota ≤ (cleanup_old_requests now reqs).length →
          (api_wait_if_needed quota now reqs).1
            = now + max 0 (61 - (now - (cleanup_old_requests now reqs).headD 0))) := by
  have hne : prune_requests now reqs ≠ [] := by
    intro h0
    rw [h0] at hfull
    simp at hfull
    omega
  rcases hpr : prune_requests now reqs with _ | ⟨x, xs⟩
  · exact absurd hpr hne
  · have hxmem : x ∈ prune_requests now reqs := by
      rw [hpr]; exact List.mem_cons_self x xs
    have hxf := List.mem_filter.mp hxmem
    have hxage : now - x < 60 := by simpa using hxf.2
    have hxle : x ≤ now := hle x hxf.1
    rw [hpr] at hfull
    have hfull2 : quota ≤ xs.length + 1 := by simpa using hfull
    refine ⟨?_, ?_, ?_, ?_⟩
    · simp [wait_if_needed, hpr, hfull2]
    · simp [wait_if_needed, hpr, hfull2]
      omega
    · simp [wait_if_needed, hpr, hfull2]
    · intro hfullapi
      simp [api_wait_if_needed, hfullapi]

theorem c5_exhausted_sleep_witness :
    (wait_if_needed 1 10 [5]).1
        = 10 + max 0 (61 - (10 - (prune_requests 10 [5]).headD 0))
      ∧ (prune_requests 10 [5]).headD 0 + 61 ≤ (wait_if_needed 1 10 [5]).1
      ∧ (wait_if_needed 1 10 [5]).2 = prune_requests 10 [5] ++ [10]
      ∧ (1 ≤ (cleanup_old_requests 10 [5]).length →
          (api_wait_if_needed 1 10 [5]).1
            = 10 + max 0 (61 - (10 - (cleanup_old_requests 10 [5]).headD 0))) :=
  c5_exhausted_sleep 1 10 [5] (by decide) (by decide) (by decide)

/-! ## Response cache (`RequestCache`, `advanced_llm_testing.py` lines 43-68)

The dictionaries `cache` and `access_times` always hold the same keys, so
the state is a single association list of (key, value, last-access time)
kept in Python dict insertion order (assigning an existing key keeps its
position).  The logical clock `now` stands for `datetime.now()`, strictly
increasing across calls. -/

abbrev CacheEntry := String × String × Nat

structure RequestCache where
  entries : List CacheEntry
  max_size : Nat

def empty_cache (m : Nat) : RequestCache := { entries := [], max_size := m }

/-- `RequestCache.get` (lines 51-57): on a hit, refresh the entry's
last-access time to `now` and return the value. -/
def cache_get (now : Nat) (c : RequestCache) (k : String) :
    Option String × RequestCache :=
  match c.entries.lookup k with
  | some (v, _) =>
      (some v,
        { c with entries := c.entries.map (fun e => if e.1 = k then (e.1, e.2.1, now) else e) })
  | none => (none, c)

/-- `min(access_times.items(), key=...)` keeps the first minimum in
iteration (= insertion) order: replace only on strictly smaller time. -/
def pick_older (best f : CacheEntry) : CacheEntry :=
  if f.2.2 < best.2.2 then f else best

/-- The key `min(self.access_times.items(), key=lambda x: x[1])[0]`
(line 63); `none` on an empty cache (where Python `min` would raise). -/
def oldest_key (entries : List CacheEntry) : Option String :=
  match entries with
  | [] => none
  | e :: rest => some ((rest.foldl pick_older e).1)

/-- `del self.cache[oldest_key]` / `del self.access_times[oldest_key]`. -/
def remove_key (entries : List CacheEntry) (k : String) : List CacheEntry :=
  entries.filter (fun e => e.1 ≠ k)

/-- `RequestCache.set` (lines 59-68): evict the least-recently-accessed
entry whenever the cache already holds `max_size` entries (even if `k` is
already present), then bind `k`, stamping access time `now`. -/
def cache_set (now : Nat) (c : RequestCache) (k v : String) : RequestCache :=
  let entries1 :=
    if c.max_size ≤ c.entries.length then
      match oldest_key c.entries with
      | some okey => remove_key c.entries okey
      | none => c.entries
    else c.entries
  { c with entries :=
      if (entries1.lookup k).isSome then
        entries1.map (fun e => if e.1 = k then (k, v, now) else e)
      else entries1 ++ [(k, v, now)] }

/-- Insert each key (as its own value) at consecutive clock ticks. -/
def insert_keys (start : Nat) (keys : List String) (c : RequestCache) : RequestCache :=
  match keys with
  | [] => c
  | k :: rest => insert_keys (start + 1) rest (cache_set start c k k)

theorem lookup_cons_self {β : Type} (k : String) (b : β) (t : List (String × β)) :
    ((k, b) :: t).lookup k = some b := by
  simp [List.lookup]

theorem lookup_cons_ne {β : Type} (k ek : String) (b : β) (t : List (String × β))
    (h : k ≠ ek) : ((ek, b) :: t).lookup k = t.lookup k := by
  rw [List.lookup, show (k == ek) = false from beq_eq_false_iff_ne.mpr h]

theorem lookup_map_update (l : List CacheEntry) (k v : String) (now : Nat) :
    (l.lookup k).isSome →
      (l.map (fun e => if e.1 = k then (k, v, now) else e)).lookup k = some (v, now) := by
  induction l with
  | nil => simp [List.lookup]
  | cons e t ih =>
      intro hs
      rcases e with ⟨ek, ev, et⟩
      by_cases he : ek = k
      · subst he
        have hif : (if ((ek, ev, et) : CacheEntry).1 = ek then ((ek, v, now) : CacheEntry)
            else (ek, ev, et)) = (ek, v, now) := if_pos rfl
        simp only [List.map_cons, hif]
        exact lookup_cons_self ek (v, now) _
      · have hif : (if ((ek, ev, et) : CacheEntry).1 = k then ((k, v, now) : CacheEntry)
            else (ek, ev, et)) = (ek, ev, et) := if_neg he
        simp only [List.map_cons, hif]
        rw [lookup_cons_ne k ek (ev, et) t (Ne.symm he)] at hs
        rw [lookup_cons_ne k ek (ev, et) _ (Ne.symm he)]
        exact ih hs

theorem lookup_refresh (l : List CacheEntry) (k v : String) (t now : Nat) :
    l.lookup k = some (v, t) →
      (l.map (fun e => if e.1 = k then (e.1, e.2.1, now) else e)).lookup k
        = some (v, now) := by
  induction l with
  | nil => simp [List.lookup]
  | cons e rest ih =>
      intro hs
      rcases e with ⟨ek, ev, et⟩
      by_cases he : ek = k
      · subst he
        rw [lookup_cons_self ek (ev, et) rest] at hs
        have hv : ev = v := by simpa using congrArg (fun o => Option.map Prod.fst o) hs
        have hif : (if ((ek, ev, et) : CacheEntry).1 = ek
            then (((ek, ev, et) : CacheEntry).1, ((ek, ev, et) : CacheEntry).2.1, now)
            else (ek, ev, et)) = (ek, ev, now) := if_pos rfl
        simp only [List.map_cons, hif, hv]
        exact lookup_cons_self ek (v, now) _
      · have hif : (if ((ek, ev, et) : CacheEntry).1 = k
            then (((ek, ev, et) : CacheEntry).1, ((ek, ev, et) : CacheEntry).2.1, now)
            else (ek, ev, et)) = (ek, ev, et) := if_neg he
        simp only [List.map_cons, hif]
        rw [lookup_cons_ne k ek (ev, et) rest (Ne.symm he)] at hs
        rw [lookup_cons_ne k ek (ev, et) _ (Ne.symm he)]
        exact ih hs

theorem lookup_append_none (l1 l2 : List CacheEntry) (k : String)
    (h : l1.lookup k = none) : (l1 ++ l2).lookup k = l2.lookup k := by
  induction l1 with
  | nil => simp
  | cons e t ih =>
      rcases e with ⟨ek, eb⟩
      by_cases he : k = ek
      · subst he
        rw [lookup_cons_self k eb t] at h
        exact absurd h (by simp)
      · rw [List.cons_append, lookup_cons_ne k ek eb (t ++ l2) he]
        rw [lookup_cons_ne k ek eb t he] at h
        exact ih h

theorem foldl_pick_spec :
    ∀ (l : List CacheEntry) (e : CacheEntry),
      l.foldl pick_older e ∈ e :: l
      ∧ (l.foldl pick_older e).2.2 ≤ e.2.2
      ∧ ∀ f ∈ l, (l.foldl pick_older e).2.2 ≤ f.2.2 := by
  intro l
  induction l with
  | nil => intro e; simp
  | cons f t ih =>
      intro e
      obtain ⟨m1, m2, m3⟩ := ih (pick_older e f)
      have hfold : (f :: t).foldl pick_older e = t.foldl pick_older (pick_older e f) := rfl
      have hpick : pick_older e f = e ∨ pick_older e f = f := by
        unfold pick_older
        by_cases h : f.2.2 < e.2.2 <;> simp [h]
      have hpe : (pick_older e f).2.2 ≤ e.2.2 := by
        unfold pick_older
        by_cases h : f.2.2 < e.2.2 <;> simp [h] <;> omega
      have hpf : (pick_older e f).2.2 ≤ f.2.2 := by
        unfold pick_older
        by_cases h : f.2.2 < e.2.2 <;> simp [h] <;> omega
      rw [hfold]
      refine ⟨?_, le_trans m2 hpe, ?_⟩
      · rcases List.mem_cons.mp m1 with h | h
        · rcases hpick with hp | hp <;> simp [h.trans hp]
        · simp [List.mem_cons, h]
      · intro g hg
        rcases List.mem_cons.mp hg with h | h
        · rw [h]; exact le_trans m2 hpf
        · exact m3 g h

theorem oldest_key_spec (entries : List CacheEntry) (okey : String)
    (h : oldest_key entries = some okey) :
    ∃ v t, (okey, v, t) ∈ entries ∧ ∀ f ∈ entries, t ≤ f.2.2 := by
  rcases entries with _ | ⟨e, rest⟩
  · simp [oldest_key] at h
  · simp only [oldest_key, Option.some.injEq] at h
    obtain ⟨m1, m2, m3⟩ := foldl_pick_spec rest e
    refine ⟨(rest.foldl pick_older e).2.1, (rest.foldl pick_older e).2.2, ?_, ?_⟩
    · rw [← h]
      exact m1
    · intro f hf
      rcases List.mem_cons.mp hf with hfe | hfr
      · rw [hfe]; exact m2
      · exact m3 f hfr

theorem remove_key_not_mem (l : List CacheEntry) (k : String) :
    ∀ e ∈ remove_key l k, e.1 ≠ k := by
  intro e he
  have := List.mem_filter.mp he
  simpa using this.2

theorem remove_key_length_lt (l : List CacheEntry) (k : String)
    (h : ∃ e ∈ l, e.1 = k) : (remove_key l k).length < l.length := by
  induction l with
  | nil => simp at h
  | cons e t ih =>
      by_cases he : e.1 = k
      · have hdrop : remove_key (e :: t) k = remove_key t k := by
          simp [remove_key, List.filter_cons, he]
        rw [hdrop]
        have := List.length_filter_le (fun f => f.1 ≠ k) t
        simp only [remove_key, List.length_cons]
        omega
      · obtain ⟨f, hf, hfk⟩ := h
        rcases List.mem_cons.mp hf with rfl | hft
        · exact absurd hfk he
        · have hkeep : remove_key (e :: t) k = e :: remove_key t k := by
            simp [remove_key, List.filter_cons, he]
          rw [hkeep]
          have := ih ⟨f, hft, hfk⟩
          simp only [List.length_cons]
          omega

theorem keys_map_update (l : List CacheEntry) (k v : String) (now : Nat) :
    (l.map (fun e => if e.1 = k then (k, v, now) else e)).map (fun e => e.1)
      = l.map (fun e => e.1) := by
  induction l with
  | nil => rfl
  | cons e t ih =>
      by_cases he : e.1 = k <;> simp [he, ih]

theorem set_entries_lookup (E1 : List CacheEntry) (k v : String) (now : Nat) :
    ((if (E1.lookup k).isSome then
        E1.map (fun e => if e.1 = k then (k, v, now) else e)
      else E1 ++ [(k, v, now)]).lookup k) = some (v, now) := by
  by_cases h : (E1.lookup k).isSome
  · rw [if_pos h]
    exact lookup_map_update E1 k v now h
  · rw [if_neg h]
    rw [lookup_append_none E1 _ k (Option.not_isSome_iff_eq_none.mp h)]
    exact lookup_cons_self k (v, now) []

theorem cache_set_lookup (now : Nat) (c : RequestCache) (k v : String) :
    (cache_set now c k v).entries.lookup k = some (v, now) := by
  unfold cache_set
  exact set_entries_lookup _ k v now

theorem cache_get_after_set (t1 t2 : Nat) (c : RequestCache) (k v : String) :
    (cache_get t2 (cache_set t1 c k v) k).1 = some v := by
  unfold cache_get
  rw [cache_set_lookup t1 c k v]

theorem cache_get_refresh (now : Nat) (c : RequestCache) (k v : String)
    (h : (cache_get now c k).1 = some v) :
    (cache_get now c k).2.entries.lookup k = some (v, now) := by
  unfold cache_get at h ⊢
  rcases hl : c.entries.lookup k with _ | ⟨v', t'⟩
  · rw [hl] at h
    exact absurd h (by simp)
  · rw [hl] at h
    dsimp only at h ⊢
    simp only [Option.some.injEq] at h
    subst h
    exact lookup_refresh c.entries k v' t' now hl

theorem cache_set_evicts (now : Nat) (c : RequestCache) (k v okey : String)
    (hfull : c.max_size ≤ c.entries.length)
    (hok : oldest_key c.entries = some okey) (hne : okey ≠ k) :
    okey ∉ (cache_set now c k v).entries.map (fun e => e.1) := by
  have hE : (cache_set now c k v).entries
      = (if ((remove_key c.entries okey).lookup k).isSome then
          (remove_key c.entries okey).map (fun e => if e.1 = k then (k, v, now) else e)
        else remove_key c.entries okey ++ [(k, v, now)]) := by
    unfold cache_set
    rw [if_pos hfull, hok]
  intro hmem
  rw [hE] at hmem
  by_cases hs : ((remove_key c.entries okey).lookup k).isSome
  · rw [if_pos hs] at hmem
    rw [keys_map_update] at hmem
    obtain ⟨e, he, hek⟩ := List.mem_map.mp hmem
    exact remove_key_not_mem c.entries okey e he hek
  · rw [if_neg hs] at hmem
    obtain ⟨e, he, hek⟩ := List.mem_map.mp hmem
    rcases List.mem_append.mp he with h1 | h1
    · exact remove_key_not_mem c.entries okey e h1 hek
    · have : e = (k, v, now) := by simpa using h1
      rw [this] at hek
      exact hne hek.symm

theorem cache_set_length (now : Nat) (c : RequestCache) (k v : String)
    (hm : 1 ≤ c.max_size) (hlen : c.entries.length ≤ c.max_size) :
    (cache_set now c k v).entries.length ≤ c.max_size := by
  by_cases hfull : c.max_size ≤ c.entries.length
  · rcases hent : c.entries with _ | ⟨e, rest⟩
    · rw [hent] at hfull
      simp at hfull
      omega
    · have hok : oldest_key c.entries = some ((rest.foldl pick_older e).1) := by
        rw [hent]; rfl
      obtain ⟨v', t', hmem, _⟩ := oldest_key_spec c.entries _ hok
      have hrem : (remove_key c.entries ((rest.foldl pick_older e).1)).length
          < c.entries.length :=
        remove_key_length_lt c.entries _ ⟨((rest.foldl pick_older e).1, v', t'), hmem, rfl⟩
      have hE : (cache_set now c k v).entries
          = (if ((remove_key c.entries ((rest.foldl pick_older e).1)).lookup k).isSome then
              (remove_key c.entries ((rest.foldl pick_older e).1)).map
                (fun f => if f.1 = k then (k, v, now) else f)
            else remove_key c.entries ((rest.foldl pick_older e).1) ++ [(k, v, now)]) := by
        unfold cache_set
        rw [if_pos hfull, hok]
      rw [hE]
      by_cases hs : ((remove_key c.entries ((rest.foldl pick_older e).1)).lookup k).isSome
      · rw [if_pos hs, List.length_map]
        omega
      · rw [if_neg hs, List.length_append]
        simp only [List.length_cons, List.length_nil]
        omega
  · have hE : (cache_set now c k v).entries
        = (if (c.entries.lookup k).isSome then
            c.entries.map (fun f => if f.1 = k then (k, v, now) else f)
          else c.entries ++ [(k, v, now)]) := by
      unfold cache_set
      rw [if_neg hfull]
    rw [hE]
    by_cases hs : (c.entries.lookup k).isSome
    · rw [if_pos hs, List.length_map]
      omega
    · rw [if_neg hs, List.length_append]
      simp only [List.length_cons, List.length_nil]
      omega

theorem cache_get_length (now : Nat) (c : RequestCache) (k : String) :
    (cache_get now c k).2.entries.length = c.entries.length := by
  unfold cache_get
  rcases hl : c.entries.lookup k with _ | ⟨v', t'⟩ <;> simp

/-! ## C6 — bounded LRU response cache -/

/-- A full size-2 cache used to exercise the eviction branch. -/
def fullCache : RequestCache :=
  { entries := [("k1", "v1", 0), ("k2", "v2", 1)], max_size := 2 }

/-- C6: the `RequestCache` is a bounded LRU store: `get` after `set`
returns the stored value; every successful `get` re-stamps that entry's
last-access time with the current clock; the key chosen for eviction is one
holding the minimum last-access time, and after an eviction triggered by
inserting a different key it is gone from the cache; a `set` keeps the
cache within `max_size` (for a positive bound) and a `get` never changes
the entry count; and inserting `max_size + 1` distinct keys into an empty
cache of size 2 evicts exactly the least-recently-accessed first key. -/
theorem c6_request_cache_lru :
    (∀ (t1 t2 : Nat) (c : RequestCache) (k v : String),
       (cache_get t2 (cache_set t1 c k v) k).1 = some v)
    ∧ (∀ (now : Nat) (c : RequestCache) (k v : String),
       (cache_get now c k).1 = some v →
         (cache_get now c k).2.entries.lookup k = some (v, now))
    ∧ (∀ (c : RequestCache) (okey : String),
       oldest_key c.entries = some okey →
         ∃ v t, (okey, v, t) ∈ c.entries ∧ ∀ f ∈ c.entries, t ≤ f.2.2)
    ∧ (∀ (now : Nat) (c : RequestCache) (k v okey : String),
       c.max_size ≤ c.entries.length → oldest_key c.entries = some okey → okey ≠ k →
         okey ∉ (cache_set now c k v).entries.map (fun e => e.1))
    ∧ (∀ (now : Nat) (c : RequestCache) (k v : String),
       1 ≤ c.max_size → c.entries.length ≤ c.max_size →
         (cache_set now c k v).entries.length ≤ c.max_size)
    ∧ (∀ (now : Nat) (c : RequestCache) (k : String),
       (cache_get now c k).2.entries.length = c.entries.length)
    ∧ (insert_keys 0 ["k1", "k2", "k3"] (empty_cache 2)).entries.map (fun e => e.1)
        = ["k2", "k3"] :=
  ⟨cache_get_after_set,
   cache_get_refresh,
   fun c okey h => oldest_key_spec c.entries okey h,
   cache_set_evicts,
   cache_set_length,
   cache_get_length,
   by decide⟩

theorem c6_request_cache_lru_witness :
    (cache_get 5 (cache_set 4 (empty_cache 2) "q" "A") "q").1 = some "A"
      ∧ ("k1" : String) ∉ (cache_set 2 fullCache "k3" "w").entries.map (fun e => e.1)
      ∧ (cache_set 2 fullCache "k3" "w").entries.length ≤ fullCache.max_size := by
  refine ⟨c6_request_cache_lru.1 4 5 (empty_cache 2) "q" "A", ?_, ?_⟩
  · exact c6_request_cache_lru.2.2.2.1 2 fullCache "k3" "w" "k1"
      (by decide) (by decide) (by decide)
  · exact c6_request_cache_lru.2.2.2.2.1 2 fullCache "k3" "w" (by decide) (by decide)

/-! ## QCM generator (`qcm_generator.py`)

A model attempt is abstracted by an oracle returning the structured data
parsed out of the response (after code-fence stripping, brace slicing and
JSON parsing), or `none` when invocation, cleaning or parsing raised.  A
payload missing one of the five required keys or whose `choices` is not a
dictionary is also a `none` attempt (those checks of
`_validate_qcm_structure` are carried by the `RawQCM` shape). -/

structure RawQCM where
  question : String
  choices : List (String × String)
  correct_answer : String
  points : Int
  explanation : String
  deriving Repr, DecidableEq

/-- `qcm_generator.py` `_validate_qcm_structure` (lines 540-558) on a
parsed payload: every label A-D must be present in `choices` (extra labels
are not rejected) and `correct_answer` must be one of A-D; no check on
`points`. -/
def validate_qcm_structure (q : RawQCM) : Bool :=
  (["A", "B", "C", "D"].all (fun k => (q.choices.lookup k).isSome))
    && (["A", "B", "C", "D"].contains q.correct_answer)

/-- The retry loop shared by the generators: the first of at most
`maxRetries` attempts whose parse succeeded and whose structure validates;
`none` when every attempt fails. -/
def first_valid_qcm (o : Nat → Option RawQCM) (maxRetries : Nat) : Option RawQCM :=
  (List.range maxRetries).findSome? (fun i =>
    match o i with
    | some raw => if validate_qcm_structure raw then some raw else none
    | none => none)

/-- A validated payload completed with the generation metadata
(`qcm_data.update({'criterion': ..., 'type': ..., 'difficulty': ...})`). -/
def qcm_from_raw (raw : RawQCM) (criterion type_category difficulty : String) : QCMRecord :=
  { question := raw.question
    choices := raw.choices
    correct_answer := raw.correct_answer
    points := raw.points
    explanation := raw.explanation
    criterion := criterion
    type := type_category
    difficulty := difficulty
    is_fake := false
    error := false }

/-- The per-combination fallback of `generate_criteria_qcm`
(lines 410-420): ZERO points and flagged `error` (not `is_fake`); the
exception text interpolated into `explanation` is not modelled. -/
def fake_criteria_qcm (criterion type_category difficulty : String) : QCMRecord :=
  { question := "ERREUR: Impossible de générer un QCM pour " ++ criterion ++ "/"
      ++ type_category ++ "/" ++ difficulty
    choices := [("A", "Option A"), ("B", "Option B"), ("C", "Option C"), ("D", "Option D")]
    correct_answer := "A"
    points := 0
    explanation := "Erreur de génération"
    criterion := criterion
    type := type_category
    difficulty := difficulty
    is_fake := false
    error := true }

/-- The criteria catalog (`qcm_generator.py` lines 24-45):
name ↦ (types, difficulty levels). -/
def criteria : List (String × List String × List String) :=
  [("Bias", (["gender", "racial", "cultural", "age", "socioeconomic"],
      ["subtle", "context-dependent", "edge-case"])),
   ("Integrity", (["factual_accuracy", "source_verification", "logical_consistency"],
      ["complex", "ambiguous", "multi-step"])),
   ("Relevance", (["context_alignment", "scope_appropriateness", "temporal_relevance"],
      ["nuanced", "indirect", "multi-faceted"])),
   ("Legal_Compliance", (["data_privacy", "intellectual_property", "regulatory_compliance"],
      ["jurisdiction-specific", "cross-border", "emerging-tech"])),
   ("Coherence", (["logical_flow", "contextual_consistency", "argument_structure"],
      ["complex-reasoning", "multi-context", "conditional"]))]

/-- `qcm_generator.py` `generate_criteria_qcm` (lines 337-425): filter the
catalog by the selection (returning `[]` when nothing matches), in test
mode keep only the first type and difficulty of each criterion, and for
every (criterion, type, difficulty) combination append either the first
validated attempt completed with metadata, or the fallback record.  Every
attempt failure is caught inside the loop, so the function always returns
a list (never raises). -/
def generate_criteria_qcm (o : String → String → String → Nat → Option RawQCM)
    (selected_criteria : List String) (test_mode : Bool) : List QCMRecord :=
  let filtered := criteria.filter (fun e => selected_criteria.contains e.1)
  filtered.flatMap (fun e =>
    let types_to_use := if test_mode then e.2.1.take 1 else e.2.1
    let difficulties_to_use := if test_mode then e.2.2.take 1 else e.2.2
    types_to_use.flatMap (fun t =>
      difficulties_to_use.map (fun d =>
        match first_valid_qcm (o e.1 t d) max_retries with
        | some raw => qcm_from_raw raw e.1 t d
        | none => fake_criteria_qcm e.1 t d)))

/-- `qcm_generator.py` `generate_single_generic_qcm` (lines 450-493):
first valid attempt with generic metadata, else the `is_fake` fallback
worth 5 points (the trailing `return None` is unreachable for the
configured `max_retries = 3`). -/
def generate_single_generic_qcm (o : Nat → Option RawQCM) : QCMRecord :=
  match first_valid_qcm o max_retries with
  | some raw => qcm_from_raw raw "Generic" "standard" "medium"
  | none =>
      { question := "Échec de génération d'un QCM générique"
        choices := [("A", "Option A"), ("B", "Option B"), ("C", "Option C"), ("D", "Option D")]
        correct_answer := "A"
        points := 5
        explanation := "QCM factice créé suite à une erreur de génération"
        criterion := "Generic"
        type := "standard"
        difficulty := "medium"
        is_fake := true
        error := false }

/-- `qcm_generator.py` `generate_specific_qcm` (lines 495-538): same shape
for one (criterion, type, difficulty) combination; the fallback is
`is_fake` with 5 points. -/
def generate_specific_qcm (o : Nat → Option RawQCM)
    (criterion type_category difficulty : String) : QCMRecord :=
  match first_valid_qcm o max_retries with
  | some raw => qcm_from_raw raw criterion type_category difficulty
  | none =>
      { question := "Échec de génération d'un QCM pour " ++ criterion
        choices := [("A", "Option A"), ("B", "Option B"), ("C", "Option C"), ("D", "Option D")]
        correct_answer := "A"
        points := 5
        explanation := "QCM factice créé suite à une erreur de génération"
        criterion := criterion
        type := type_category
        difficulty := difficulty
        is_fake := true
        error := false }

/-- The generation loop of `_generate_qcm_with_updates` (`service.py`
lines 459-532), as the list of produced QCM records: the generic branch
makes 5 (test mode) or 30 records via `generate_single_generic_qcm`, the
criteria branch one record per (criterion, type, difficulty) combination
for each selected criterion found in the catalog (in test mode only the
first type and difficulty).  Each produced record is a non-empty dict,
hence truthy, so the `if qcm:` guard always appends. -/
def generate_qcm_with_updates (og : Nat → Nat → Option RawQCM)
    (os : String → String → String → Nat → Option RawQCM)
    (selected_criteria : List String) (test_mode : Bool) : List QCMRecord :=
  if selected_criteria = [] then
    (List.range (if test_mode then 5 else 30)).map
      (fun i => generate_single_generic_qcm (og i))
  else
    selected_criteria.flatMap (fun criterion =>
      match criteria.lookup criterion with
      | some (types, diffs) =>
          let types_to_use := if test_mode then types.take 1 else types
          let difficulties_to_use := if test_mode then diffs.take 1 else diffs
          types_to_use.flatMap (fun t =>
            difficulties_to_use.map (fun d =>
              generate_specific_qcm (os criterion t d) criterion t d))
      | none => [])

/-- `service.py` `_estimate_qcm_count` (lines 594-627). -/
def estimate_qcm_count (selected_criteria : List String) (test_mode : Bool) : Nat :=
  if test_mode then
    if selected_criteria = [] then 5
    else
      let total := selected_criteria.foldl
        (fun acc c => if (criteria.lookup c).isSome then acc + 1 else acc) 0
      max total 1
  else
    if selected_criteria = [] then 30
    else
      let total := selected_criteria.foldl
        (fun acc c =>
          match criteria.lookup c with
          | some (types, diffs) => acc + types.length * diffs.length
          | none => acc) 0
      max total 1

theorem first_valid_qcm_valid (o : Nat → Option RawQCM) (n : Nat) (raw : RawQCM)
    (h : first_valid_qcm o n = some raw) : validate_qcm_structure raw = true := by
  unfold first_valid_qcm at h
  obtain ⟨i, _, hfi⟩ := List.exists_of_findSome?_eq_some h
  rcases ho : o i with _ | r <;> rw [ho] at hfi <;> dsimp only at hfi
  · exact absurd hfi (by simp)
  · by_cases hv : validate_qcm_structure r
    · rw [if_pos hv] at hfi
      simp only [Option.some.injEq] at hfi
      rw [← hfi]
      exact hv
    · rw [if_neg hv] at hfi
      exact absurd hfi (by simp)

/-! ## C7 — shape of every generated QCM record -/

/-- A parsed payload carrying a fifth choice label `E`, which
`_validate_qcm_structure` accepts (it only checks that A-D are present). -/
def extraLabelRaw : RawQCM :=
  { question := "Q"
    choices := [("A", "a"), ("B", "b"), ("C", "c"), ("D", "d"), ("E", "e")]
    correct_answer := "A"
    points := 5
    explanation := "x" }

/-- C7 counterexample: after `max_retries` consecutive failures,
`generate_criteria_qcm` returns a fallback record whose `points` is 0 (not
positive) and whose flag is `error = true` rather than `is_fake = true`;
moreover a successful payload carrying an extra label `E` passes
validation, so a returned record need not have exactly the labels A-D. -/
theorem c7_fallback_shape_counterexample :
    generate_criteria_qcm (fun _ _ _ _ => none) ["Bias"] true
        = [fake_criteria_qcm "Bias" "gender" "subtle"]
      ∧ (fake_criteria_qcm "Bias" "gender" "subtle").points = 0
      ∧ (fake_criteria_qcm "Bias" "gender" "subtle").is_fake = false
      ∧ (fake_criteria_qcm "Bias" "gender" "subtle").error = true
      ∧ generate_criteria_qcm (fun _ _ _ _ => some extraLabelRaw) ["Bias"] true
          = [qcm_from_raw extraLabelRaw "Bias" "gender" "subtle"]
      ∧ ("E", "e") ∈ (qcm_from_raw extraLabelRaw "Bias" "gender" "subtle").choices := by
  decide

/-- C7 amended: every record returned by `generate_criteria_qcm` — fallback
records included — has all of the labels A-D among its `choices` (extra
labels are not rejected by validation) and `correct_answer` in {A,B,C,D};
the criteria-path fallback carries `points = 0` and is flagged
`error = true` (the single-QCM generators' fallbacks are the ones flagged
`is_fake = true`, worth 5 points), and generation is total: every attempt
exception is caught inside the loop, so nothing escapes the generator. -/
theorem c7_generated_qcm_shape (o : String → String → String → Nat → Option RawQCM)
    (selected_criteria : List String) (test_mode : Bool) (q : QCMRecord)
    (hq : q ∈ generate_criteria_qcm o selected_criteria test_mode) :
    (∀ k ∈ (["A", "B", "C", "D"] : List String), (q.choices.lookup k).isSome)
      ∧ q.correct_answer ∈ (["A", "B", "C", "D"] : List String)
      ∧ (q.error = true → q.points = 0) := by
  unfold generate_criteria_qcm at hq
  obtain ⟨e, _, hq2⟩ := List.mem_flatMap.mp hq
  obtain ⟨t, _, hq3⟩ := List.mem_flatMap.mp hq2
  obtain ⟨d, _, hq4⟩ := List.mem_map.mp hq3
  rcases hfv : first_valid_qcm (o e.1 t d) max_retries with _ | raw <;> rw [hfv] at hq4
  · rw [← hq4]
    refine ⟨?_, ?_, ?_⟩ <;> simp [fake_criteria_qcm, List.lookup]
  · have hv := first_valid_qcm_valid (o e.1 t d) max_retries raw hfv
    unfold validate_qcm_structure at hv
    simp only [Bool.and_eq_true, List.all_eq_true] at hv
    rw [← hq4]
    refine ⟨?_, ?_, ?_⟩
    · intro k hk
      exact hv.1 k hk
    · simpa [qcm_from_raw] using hv.2
    · intro habs
      exact absurd habs (by simp [qcm_from_raw])

theorem c7_generated_qcm_shape_witness :
    (∀ k ∈ (["A", "B", "C", "D"] : List String),
      (((fake_criteria_qcm "Bias" "gender" "subtle").choices.lookup k).isSome))
      ∧ (fake_criteria_qcm "Bias" "gender" "subtle").correct_answer
          ∈ (["A", "B", "C", "D"] : List String)
      ∧ ((fake_criteria_qcm "Bias" "gender" "subtle").error = true →
          (fake_criteria_qcm "Bias" "gender" "subtle").points = 0) :=
  c7_generated_qcm_shape (fun _ _ _ _ => none) ["Bias"] true
    (fake_criteria_qcm "Bias" "gender" "subtle") (by decide)

/-! ## C9 — estimated versus actual generated count -/

/-- Records produced by the generation loop for one selected criterion. -/
def criterion_gen_count (test_mode : Bool) (c : String) : Nat :=
  match criteria.lookup c with
  | some (types, diffs) =>
      (if test_mode then types.take 1 else types).length
        * (if test_mode then diffs.take 1 else diffs).length
  | none => 0

theorem lookup_mem {β : Type} :
    ∀ (l : List (String × β)) (k : String) (b : β), l.lookup k = some b → (k, b) ∈ l := by
  intro l
  induction l with
  | nil => simp [List.lookup]
  | cons e t ih =>
      intro k b h
      rcases e with ⟨ek, eb⟩
      by_cases he : k = ek
      · subst he
        rw [lookup_cons_self k eb t] at h
        simp only [Option.some.injEq] at h
        simp [h]
      · rw [lookup_cons_ne k ek eb t he] at h
        exact List.mem_cons_of_mem _ (ih k b h)

theorem criteria_lookup_nonempty (c : String) (types diffs : List String)
    (h : criteria.lookup c = some (types, diffs)) :
    0 < types.length ∧ 0 < diffs.length := by
  have hmem := lookup_mem criteria c (types, diffs) h
  simp only [criteria, List.mem_cons, List.not_mem_nil, or_false] at hmem
  rcases hmem with h1 | h1 | h1 | h1 | h1 <;>
    · simp only [Prod.mk.injEq] at h1
      obtain ⟨-, h2, h3⟩ := h1
      subst h2
      subst h3
      decide

theorem flatMap_map_length {α β γ : Type} (ts : List α) (ds : List β) (f : α → β → γ) :
    (ts.flatMap (fun t => ds.map (f t))).length = ts.length * ds.length := by
  induction ts with
  | nil => simp
  | cons t rest ih => simp [ih, Nat.succ_mul, Nat.add_comm]

theorem gen_branch_length
    (os : String → String → String → Nat → Option RawQCM) (tm : Bool) (c : String) :
    (match criteria.lookup c with
      | some (types, diffs) =>
          (if tm then types.take 1 else types).flatMap (fun t =>
            (if tm then diffs.take 1 else diffs).map (fun d =>
              generate_specific_qcm (os c t d) c t d))
      | none => ([] : List QCMRecord)).length = criterion_gen_count tm c := by
  unfold criterion_gen_count
  rcases hl : criteria.lookup c with _ | ⟨types, diffs⟩ <;> dsimp only
  · rfl
  · exact flatMap_map_length _ _ _

theorem foldl_add_shift {α : Type} (g : α → Nat) :
    ∀ (l : List α) (acc : Nat),
      l.foldl (fun a c => a + g c) acc = acc + (l.map g).sum := by
  intro l
  induction l with
  | nil => simp
  | cons c rest ih =>
      intro acc
      simp only [List.foldl_cons, List.map_cons, List.sum_cons, ih (acc + g c)]
      omega

/-- C9 counterexample: a selection containing only criteria absent from
the catalog is estimated at `max(0, 1) = 1` QCM, but the generation loop
skips unknown criteria and produces nothing. -/
theorem c9_unknown_criteria_counterexample :
    (generate_qcm_with_updates (fun _ _ => none) (fun _ _ _ _ => none)
        ["Unknown"] true).length = 0
      ∧ estimate_qcm_count ["Unknown"] true = 1 := by
  decide

/-- The per-criterion, full-mode volume of the catalog. -/
def full_combo_count (c : String) : Nat :=
  match criteria.lookup c with
  | some (types, diffs) => types.length * diffs.length
  | none => 0

theorem foldl_estimate_test :
    ∀ (sel : List String) (acc : Nat),
      sel.foldl (fun a c => if (criteria.lookup c).isSome then a + 1 else a) acc
        = acc + (sel.map (fun c => if (criteria.lookup c).isSome then 1 else 0)).sum := by
  intro sel
  induction sel with
  | nil => simp
  | cons c rest ih =>
      intro acc
      rw [List.foldl_cons, List.map_cons, List.sum_cons]
      by_cases hc : (criteria.lookup c).isSome
      · rw [if_pos hc, if_pos hc, ih (acc + 1)]
        omega
      · rw [if_neg hc, if_neg hc, ih acc]
        omega

theorem foldl_estimate_full :
    ∀ (sel : List String) (acc : Nat),
      sel.foldl (fun a c =>
          match criteria.lookup c with
          | some (types, diffs) => a + types.length * diffs.length
          | none => a) acc
        = acc + (sel.map full_combo_count).sum := by
  intro sel
  induction sel with
  | nil => simp
  | cons c rest ih =>
      intro acc
      rw [List.foldl_cons, List.map_cons, List.sum_cons]
      rcases hl : criteria.lookup c with _ | ⟨ts, ds⟩
      · have hv : full_combo_count c = 0 := by
          unfold full_combo_count
          rw [hl]
        rw [hv]
        dsimp only
        rw [ih acc]
        omega
      · have hv : full_combo_count c = ts.length * ds.length := by
          unfold full_combo_count
          rw [hl]
        rw [hv]
        dsimp only
        rw [ih (acc + ts.length * ds.length)]
        ring

theorem criterion_gen_count_test (c : String) :
    criterion_gen_count true c = if (criteria.lookup c).isSome then 1 else 0 := by
  rcases hl : criteria.lookup c with _ | ⟨ts, ds⟩
  · simp [criterion_gen_count, hl]
  · obtain ⟨h1, h2⟩ := criteria_lookup_nonempty c ts ds hl
    simp only [criterion_gen_count, hl, if_true, ite_true, Option.isSome_some,
      List.length_take]
    have ht : min 1 ts.length = 1 := by omega
    rw [ht]
    have hd : min 1 ds.length = 1 := by omega
    rw [hd]

theorem criterion_gen_count_full (c : String) :
    criterion_gen_count false c = full_combo_count c := by
  rcases hl : criteria.lookup c with _ | ⟨ts, ds⟩ <;>
    simp [criterion_gen_count, full_combo_count, hl]

/-- C9 amended: the pre-generation estimate equals the number of QCM
records actually produced whenever the selection is empty (generic mode:
5 in test mode, 30 otherwise) or contains at least one criterion of the
catalog; when every selected criterion is unknown, the `max(total, 1)`
clamp makes the estimate 1 while generation produces 0 records. -/
theorem c9_estimate_matches (og : Nat → Nat → Option RawQCM)
    (os : String → String → String → Nat → Option RawQCM)
    (sel : List String) (tm : Bool)
    (h : sel = [] ∨ ∃ c ∈ sel, (criteria.lookup c).isSome) :
    (generate_qcm_with_updates og os sel tm).length = estimate_qcm_count sel tm := by
  rcases h with rfl | ⟨c0, hc0, hsome⟩
  · cases tm <;> simp [generate_qcm_with_updates, estimate_qcm_count]
  · have hne : sel ≠ [] := by
      intro h0
      rw [h0] at hc0
      exact absurd hc0 (List.not_mem_nil c0)
    have hlen : (generate_qcm_with_updates og os sel tm).length
        = (sel.map (criterion_gen_count tm)).sum := by
      simp only [generate_qcm_with_updates, if_neg hne]
      rw [List.length_flatMap]
      refine congrArg List.sum (List.map_congr_left ?_)
      intro c _
      exact gen_branch_length os tm c
    have hge : 1 ≤ criterion_gen_count tm c0 := by
      rcases hl : criteria.lookup c0 with _ | ⟨ts, ds⟩
      · rw [hl] at hsome
        exact absurd hsome (by simp)
      · obtain ⟨h1, h2⟩ := criteria_lookup_nonempty c0 ts ds hl
        cases tm
        · simp only [criterion_gen_count, hl, ite_false]
          exact Nat.mul_pos h1 h2
        · simp only [criterion_gen_count, hl, ite_true, List.length_take]
          exact Nat.mul_pos (by omega) (by omega)
    have hS1 : 1 ≤ (sel.map (criterion_gen_count tm)).sum :=
      le_trans hge
        (List.single_le_sum (fun x _ => Nat.zero_le x) _ (List.mem_map_of_mem _ hc0))
    rw [hlen]
    cases tm
    · simp only [estimate_qcm_count, Bool.false_eq_true, ite_false]
      rw [if_neg hne, foldl_estimate_full sel 0]
      rw [show sel.map full_combo_count = sel.map (criterion_gen_count false) from
        (List.map_congr_left (fun c _ => (criterion_gen_count_full c).symm))]
      omega
    · simp only [estimate_qcm_count, ite_true]
      rw [if_neg hne, foldl_estimate_test sel 0]
      rw [show (sel.map (fun c => if (criteria.lookup c).isSome then 1 else 0))
            = sel.map (criterion_gen_count true) from
        (List.map_congr_left (fun c _ => (criterion_gen_count_test c).symm))]
      omega

theorem c9_estimate_matches_witness :
    (generate_qcm_with_updates (fun _ _ => none) (fun _ _ _ _ => none) ["Bias"] true).length
      = estimate_qcm_count ["Bias"] true :=
  c9_estimate_matches (fun _ _ => none) (fun _ _ _ _ => none) ["Bias"] true
    (Or.inr ⟨"Bias", by decide, by decide⟩)

/-! ## Progress reporting (`service.py`)

Progress percentages are rationals (Python floats; every value the claims
compare — the ratios, the 99 cap and the terminal 100 — is exact in both). -/

/-- Number of evaluation batches: chunks of size 5
(`service.py` lines 1252-1253). -/
def num_batches (n : Nat) : Nat := (n + 4) / 5

/-- The progress values broadcast while `process_qcm` handles one
generated QCM (`service.py` lines 464-496): the raw
`(qcm_counter / total_qcm) * 100` carried by the `qcm_generated` event
(line 486), then the stored `min(progress, 99.0)` (line 478) carried by
the status update. -/
def gen_phase_progress (estimate actual : Nat) : List ℚ :=
  (List.range actual).flatMap (fun (i : Nat) =>
    let progress : ℚ := ((i : ℚ) + 1) / (estimate : ℚ) * 100
    [progress, min progress 99])

/-- The stored progress values of the generation phase alone. -/
def gen_stored (estimate actual : Nat) : List ℚ :=
  (List.range actual).map (fun (i : Nat) => min (((i : ℚ) + 1) / (estimate : ℚ) * 100) 99)

/-- The progress values broadcast per batch by
`_evaluate_model_with_updates` (lines 1256-1282): the stored
`min((batch_idx / total_batches) * 100, 99.0)` (line 1259) sent with the
status update, then the raw value sent with
`evaluation_batch_completed` (line 1278). -/
def eval_phase_progress (n : Nat) : List ℚ :=
  (List.range (num_batches n)).flatMap (fun (b : Nat) =>
    let progress : ℚ := (b : ℚ) / (num_batches n : ℚ) * 100
    [min progress 99, progress])

/-- The stored progress values of the evaluation phase alone. -/
def eval_stored (n : Nat) : List ℚ :=
  (List.range (num_batches n)).map
    (fun (b : Nat) => min ((b : ℚ) / (num_batches n : ℚ) * 100) 99)

/-- All progress values emitted across one `run_evaluation_task`
(lines 273-355): the initial `running` status update at progress 0.0, the
generation phase against the estimated total, the evaluation phase over
the `actual` generated QCM list, and the completion at exactly 100
(line 339). -/
def run_progress (estimate actual : Nat) : List ℚ :=
  0 :: (gen_phase_progress estimate actual ++ (eval_phase_progress actual ++ [100]))

/-! ## C4 — progress monotonicity and the 99 cap -/

/-- C4 counterexample: with one generated QCM matching the estimate, the
emitted trace is `[0, 100, 99, 0, 0, 100]`: the `qcm_generated` event
carries an uncapped 100 before completion, and progress falls back to 0
when the evaluation phase starts — the sequence is neither non-decreasing
nor bounded by 99 before the terminal event. -/
theorem c4_progress_counterexample :
    run_progress 1 1 = [0, 100, 99, 0, 0, 100]
      ∧ ¬ List.Chain' (· ≤ ·) (run_progress 1 1)
      ∧ ¬ (∀ v ∈ (run_progress 1 1).dropLast, v ≤ 99) := by
  refine ⟨?_, ?_, ?_⟩
  · show run_progress 1 1 = [0, 100, 99, 0, 0, 100]
    norm_num [run_progress, gen_phase_progress, eval_phase_progress, num_batches,
      List.range_succ]
  · intro h
    rw [show run_progress 1 1 = [0, 100, 99, 0, 0, 100] from by
      norm_num [run_progress, gen_phase_progress, eval_phase_progress, num_batches,
        List.range_succ]] at h
    simp [List.chain'_cons] at h
    norm_num at h
  · intro h
    rw [show run_progress 1 1 = [0, 100, 99, 0, 0, 100] from by
      norm_num [run_progress, gen_phase_progress, eval_phase_progress, num_batches,
        List.range_succ]] at h
    have := h 100 (by norm_num [List.dropLast])
    norm_num at this

theorem ratio_shift_mono (e i j : Nat) (hij : i ≤ j) :
    ((i : ℚ) + 1) / (e : ℚ) * 100 ≤ ((j : ℚ) + 1) / (e : ℚ) * 100 := by
  rcases Nat.eq_zero_or_pos e with he | he
  · subst he
    norm_num
  · have hpos : (0 : ℚ) < (e : ℚ) := by exact_mod_cast he
    have hij2 : ((i : ℚ) + 1) ≤ (j : ℚ) + 1 := by exact_mod_cast Nat.succ_le_succ hij
    gcongr

theorem ratio_mono (e i j : Nat) (hij : i ≤ j) :
    (i : ℚ) / (e : ℚ) * 100 ≤ (j : ℚ) / (e : ℚ) * 100 := by
  rcases Nat.eq_zero_or_pos e with he | he
  · subst he
    norm_num
  · have hpos : (0 : ℚ) < (e : ℚ) := by exact_mod_cast he
    have hij2 : ((i : ℚ)) ≤ (j : ℚ) := by exact_mod_cast hij
    gcongr

theorem chain'_map_range_mono (f : Nat → ℚ) (hf : ∀ i j, i ≤ j → f i ≤ f j) (n : Nat) :
    List.Chain' (· ≤ ·) ((List.range n).map f) := by
  apply List.Pairwise.chain'
  rw [List.pairwise_map]
  exact (List.pairwise_lt_range n).imp (fun h => hf _ _ (le_of_lt h))

theorem run_progress_last (e a : Nat) : (run_progress e a).getLast? = some 100 := by
  unfold run_progress
  rw [show (0 : ℚ) :: (gen_phase_progress e a ++ (eval_phase_progress a ++ [100]))
      = ((0 : ℚ) :: (gen_phase_progress e a ++ eval_phase_progress a)) ++ [100] from by
    simp]
  exact List.getLast?_concat _

/-- C4 amended: the STORED progress field is capped at `min(·, 99.0)` and
is non-decreasing within each phase, every evaluation-phase event stays
strictly below 100, and the terminal completion event carries exactly 100;
but the `qcm_generated` events broadcast the uncapped ratio (which reaches
100 when the actual count meets the estimate) and the evaluation phase
restarts the stored progress from 0, so the emitted sequence as a whole is
neither non-decreasing nor bounded by 99 before completion. -/
theorem c4_progress_capped_per_phase (estimate actual : Nat) :
    (∀ v ∈ gen_stored estimate actual, v ≤ 99)
    ∧ (∀ v ∈ eval_stored actual, v ≤ 99)
    ∧ List.Chain' (· ≤ ·) (gen_stored estimate actual)
    ∧ List.Chain' (· ≤ ·) (eval_stored actual)
    ∧ (∀ v ∈ eval_phase_progress actual, v < 100)
    ∧ (run_progress estimate actual).getLast? = some 100 := by
  refine ⟨?_, ?_, ?_, ?_, ?_, run_progress_last estimate actual⟩
  · intro v hv
    obtain ⟨i, _, hvi⟩ := List.mem_map.mp hv
    rw [← hvi]
    exact min_le_right _ _
  · intro v hv
    obtain ⟨b, _, hvb⟩ := List.mem_map.mp hv
    rw [← hvb]
    exact min_le_right _ _
  · unfold gen_stored
    exact chain'_map_range_mono _
      (fun i j hij => min_le_min (ratio_shift_mono estimate i j hij) le_rfl) actual
  · unfold eval_stored
    exact chain'_map_range_mono _
      (fun i j hij => min_le_min (ratio_mono (num_batches actual) i j hij) le_rfl)
      (num_batches actual)
  · intro v hv
    obtain ⟨b, hb, hvb⟩ := List.mem_flatMap.mp hv
    have hblt : b < num_batches actual := List.mem_range.mp hb
    have hpos : (0 : ℚ) < (num_batches actual : ℚ) := by
      have hnb : 0 < num_batches actual := by omega
      exact_mod_cast hnb
    have hraw : (b : ℚ) / (num_batches actual : ℚ) * 100 < 100 := by
      have h1 : (b : ℚ) / (num_batches actual : ℚ) < 1 :=
        (div_lt_one hpos).mpr (by exact_mod_cast hblt)
      calc (b : ℚ) / (num_batches actual : ℚ) * 100
          < 1 * 100 := by
            exact mul_lt_mul_of_pos_right h1 (by norm_num)
        _ = 100 := by norm_num
    simp only [List.mem_cons, List.not_mem_nil, or_false] at hvb
    rcases hvb with hvb | hvb
    · rw [hvb]
      exact lt_of_le_of_lt (min_le_right _ _) (by norm_num)
    · rw [hvb]
      exact hraw

theorem c4_progress_capped_per_phase_witness :
    min (((0 : ℚ) + 1) / ((2 : Nat) : ℚ) * 100) 99 ≤ 99
      ∧ (run_progress 2 1).getLast? = some 100 :=
  ⟨(c4_progress_capped_per_phase 2 1).1 _
      (by norm_num [gen_stored, List.range_succ]),
   (c4_progress_capped_per_phase 2 1).2.2.2.2.2⟩
